import Mathlib

/-!
Verification development for the metadata-extension node pack
(`modules/defs/ext/SantodanNodes.py` and `modules/nodes/node.py`).

The Python code is shallowly embedded: resolved node inputs become a map from
slot names to optional value lists, Python `None`/strings become an inductive
`Val`, floats produced by `float(...)` on matched decimal literals are modelled
as exact rationals, and fallible code is modelled with `Except`.  External hash
functions (out of scope in the source, imported from `..formatters`) are taken
as function parameters; a hash that can raise is a `String → Except Unit String`.
-/

/-- A resolved input value: Python `None` or a string.  The selector functions
under study only ever read strings and `None` from input slots. -/
inductive Val where
  | vnone
  | vstr (s : String)
deriving DecidableEq

/-- `input_data[0]`: a mapping from input-slot name to the resolved value list
ComfyUI provides for that slot (`Option.none` = the key is absent). -/
abbrev Inputs := String → Option (List Val)

/-- Well-formedness of a resolved-input context: every present slot carries a
non-empty list.  (ComfyUI always wraps resolved values in singleton lists; on an
empty list the Python expression `input_data[0].get(k, [None])[0]` would raise
`IndexError`, so the embedding only speaks about non-empty slots.) -/
def WFInputs (inputs : Inputs) : Prop := ∀ k l, inputs k = some l → l ≠ []

/-- Python `lst[0]` on a resolved value list.  Total stand-in: under `WFInputs`
the `headD` default is never consulted. -/
def pyIndex0 (l : List Val) : Val := l.headD Val.vnone

/-- Python `input_data[0].get(key, [dflt])[0]`. -/
def pyGetFirst (inputs : Inputs) (key : String) (dflt : Val) : Val :=
  match inputs key with
  | some l => pyIndex0 l
  | none => dflt

/-- The value a selector returns: Python `None`, a string, a list of strings,
a list of optional strings (lora hashes, where a failed hash is `None`), or a
list of floats (lora strengths). -/
inductive RVal where
  | rnone
  | rstr (s : String)
  | rstrList (l : List String)
  | rhashList (l : List (Option String))
  | rnumList (l : List ℚ)
deriving DecidableEq

/-- Lift a slot value to a selector result (Python just returns the object). -/
def rvalOfVal : Val → RVal
  | Val.vnone => RVal.rnone
  | Val.vstr s => RVal.rstr s

/-- Python regex `\s` on the ASCII whitespace characters (the inputs under
study contain no non-ASCII whitespace). -/
def isSpaceChar (c : Char) : Bool :=
  c == ' ' || c == '\t' || c == '\n' || c == '\r' || c == '\x0b' || c == '\x0c'

/-- Split a character list into its maximal leading digit run and the rest
(regex `\d*` with what follows). -/
def spanDigits : List Char → List Char × List Char
  | [] => ([], [])
  | c :: cs =>
    if c.isDigit then ((c :: (spanDigits cs).1), (spanDigits cs).2)
    else ([], c :: cs)

/-- Consume an optional leading sign (regex `[-+]?`). -/
def splitSign : List Char → List Char × List Char
  | [] => ([], [])
  | c :: cs => if c = '+' ∨ c = '-' then ([c], cs) else ([], c :: cs)

/-- Tail of the number match after integer digits and a literal dot: fractional
digits `d2` must be non-empty and be followed by `)` (regex `\d+\)`). -/
def numFrac (sgn d1 d2 cs3 : List Char) : Option (String × List Char) :=
  if d2.isEmpty then none
  else
    match cs3 with
    | ')' :: rest => some (String.mk (sgn ++ d1 ++ '.' :: d2), rest)
    | _ => none

/-- Number match after the optional sign and the maximal integer digit run:
either `.` then fractional digits then `)`, or (non-empty digits) then `)`.
This is the exact backtracking result of Python matching `[-+]?\d*\.?\d+\)`
anchored at the current position. -/
def numAfterInt (sgn d1 cs2 : List Char) : Option (String × List Char) :=
  match cs2 with
  | '.' :: cs2t => numFrac sgn d1 (spanDigits cs2t).1 (spanDigits cs2t).2
  | ')' :: rest => if d1.isEmpty then none else some (String.mk (sgn ++ d1), rest)
  | _ => none

/-- Match regex `([-+]?\d*\.?\d+)\)` at the start of `cs`, returning the
captured number text and the remainder after `)`. -/
def matchNumParen (cs : List Char) : Option (String × List Char) :=
  numAfterInt (splitSign cs).1 (spanDigits (splitSign cs).2).1
    (spanDigits (splitSign cs).2).2

/-- Match the pattern tail `\s\(` + number + `\)` at the start of `cs`. -/
def tryTail (cs : List Char) : Option (String × List Char) :=
  match cs with
  | c1 :: c2 :: rest =>
    if isSpaceChar c1 && c2 == '(' then matchNumParen rest else none
  | _ => none

/-- Lazy growth of the name group `[^,]+?`: with `acc` (non-empty) already
consumed as the name candidate, first try the pattern tail at `cs`; on failure
extend the name by one more non-comma character, exactly as the lazy
quantifier backtracks. -/
def tryMatchFrom (acc cs : List Char) : Option ((String × String) × List Char) :=
  match tryTail cs with
  | some x => some ((String.mk acc, x.1), x.2)
  | none =>
    match cs with
    | [] => none
    | c :: rest => if c = ',' then none else tryMatchFrom (acc ++ [c]) rest

/-- Attempt a match of `([^,]+?)\s\(([-+]?\d*\.?\d+)\)` anchored at the start
of `cs`; the name needs at least one (non-comma) character. -/
def tryMatchAt (cs : List Char) : Option ((String × String) × List Char) :=
  match cs with
  | [] => none
  | c :: rest => if c = ',' then none else tryMatchFrom [c] rest

/-- Scanning loop of `re.findall`: attempt a match at each position, moving one
character on failure and past the matched text on success.  `fuel` only bounds
the recursion; every step strictly shrinks the text, so `fuel = length + 1`
is never exhausted (`findallGo_congr` below). -/
def findallGo : Nat → List Char → List (String × String)
  | 0, _ => []
  | fuel + 1, cs =>
    match cs with
    | [] => []
    | c :: rest =>
      match tryMatchAt (c :: rest) with
      | some x => x.1 :: findallGo fuel x.2
      | none => findallGo fuel rest

/-- Python `re.findall(r"([^,]+?)\s\(([-+]?\d*\.?\d+)\)", s)` as the list of
(name, number) group pairs. -/
def findallLora (cs : List Char) : List (String × String) :=
  findallGo (cs.length + 1) cs

/-- Decimal digits to a natural number (accumulator form). -/
def digitsNatAux : Nat → List Char → Nat
  | acc, [] => acc
  | acc, c :: cs => digitsNatAux (acc * 10 + (c.toNat - 48)) cs

/-- Decimal digits to a natural number. -/
def digitsNat (cs : List Char) : Nat := digitsNatAux 0 cs

/-- Value of an unsigned decimal literal `digits` or `digits.digits`
(as Python `float` computes it, modelled exactly in `ℚ`). -/
def parseUnsigned (cs : List Char) : ℚ :=
  match (spanDigits cs).2 with
  | '.' :: fr =>
    mkRat
      (digitsNat (spanDigits cs).1 * 10 ^ (spanDigits fr).1.length +
        digitsNat (spanDigits fr).1)
      (10 ^ (spanDigits fr).1.length)
  | _ => (digitsNat (spanDigits cs).1 : ℚ)

/-- Python `float(t)` on the signed decimal literals captured by the number
group, modelled as an exact rational. -/
def parsePyFloat (s : String) : ℚ :=
  match s.toList with
  | '-' :: cs => -(parseUnsigned cs)
  | '+' :: cs => parseUnsigned cs
  | cs => parseUnsigned cs

/-- Python `str.strip()` on ASCII whitespace. -/
def trimChars (cs : List Char) : List Char :=
  ((cs.dropWhile (fun c => isSpaceChar c)).reverse.dropWhile
    (fun c => isSpaceChar c)).reverse

/-- Python `s.strip()`. -/
def pyStrip (s : String) : String := String.mk (trimChars s.toList)

/-- One parsed lora reference: `{"name": ..., "strength": ...}`. -/
structure LoraEntry where
  name : String
  strength : ℚ
deriving DecidableEq

/-- All matches of the lora pattern in one slot string, with the name
whitespace-stripped and the strength parsed (`m[0].strip()`, `float(m[1])`). -/
def parseLoraStr (s : String) : List LoraEntry :=
  (findallLora s.toList).map
    (fun m => { name := pyStrip m.1, strength := parsePyFloat m.2 })

/-- Entries contributed by hub slot `loras_i`: the slot value defaults to
`""`; a present (list-wrapped) value is unwrapped with `[0]`; only a non-empty
string is scanned. -/
def slotLoras (inputs : Inputs) (i : Nat) : List LoraEntry :=
  match
    (match inputs ("loras_" ++ toString i) with
     | some l => pyIndex0 l
     | none => Val.vstr "") with
  | Val.vstr s => if s = "" then [] else parseLoraStr s
  | Val.vnone => []

/-- `parse_lora_hub_data`: scan slots `loras_1` .. `loras_4` in that order,
appending each slot's entries after the previous slot's. -/
def parse_lora_hub_data (inputs : Inputs) : List LoraEntry :=
  slotLoras inputs 1 ++ slotLoras inputs 2 ++ slotLoras inputs 3 ++ slotLoras inputs 4

/-! ### Selectors of the `ModelAssembler` (single-checkpoint loader) kind

The external hash functions `calc_model_hash`, `calc_vae_hash`, `calc_clip_hash`
are pure `String → String` parameters (`cm`, `cv`, `cc`); `calc_lora_hash` may
raise, so it is a `String → Except Unit String` parameter (`cl`). -/

/-- `get_model_name`: read `load_mode` (default `"full_checkpoint"`), then the
`ckpt_name` slot in full-checkpoint mode and the `base_model` slot otherwise. -/
def get_model_name (inputs : Inputs) : RVal :=
  rvalOfVal (pyGetFirst inputs
    (if pyGetFirst inputs ("load_mode") (Val.vstr "full_checkpoint") =
        Val.vstr "full_checkpoint"
     then "ckpt_name" else "base_model")
    Val.vnone)

/-- `get_model_hash`: hash the model name if it is truthy (`if model_name:`),
else `None`. -/
def get_model_hash (cm : String → String) (inputs : Inputs) : RVal :=
  match get_model_name inputs with
  | RVal.rstr s => if s = "" then RVal.rnone else RVal.rstr (cm s)
  | _ => RVal.rnone

/-- `get_vae_name`: the `vae_model` slot, but only in separate-components
mode. -/
def get_vae_name (inputs : Inputs) : RVal :=
  if pyGetFirst inputs ("load_mode") (Val.vstr "full_checkpoint") =
      Val.vstr "separate_components"
  then rvalOfVal (pyGetFirst inputs ("vae_model") Val.vnone)
  else RVal.rnone

/-- `get_vae_hash`: hash the vae name if it is truthy, else `None`. -/
def get_vae_hash (cv : String → String) (inputs : Inputs) : RVal :=
  match get_vae_name inputs with
  | RVal.rstr s => if s = "" then RVal.rnone else RVal.rstr (cv s)
  | _ => RVal.rnone

/-- The collection loop of `get_clip_names` over the three clip slots: keep a
slot value only when it is a truthy string different from `"None"`. -/
def clipLoop (inputs : Inputs) : List String → List String
  | [] => []
  | k :: ks =>
    match pyGetFirst inputs k Val.vnone with
    | Val.vstr s =>
      if s ≠ "" ∧ s ≠ "None" then s :: clipLoop inputs ks else clipLoop inputs ks
    | Val.vnone => clipLoop inputs ks

/-- `get_clip_names`: in separate-components mode, the kept clip slot values
(`None` when the kept list is empty); otherwise `None`. -/
def get_clip_names (inputs : Inputs) : RVal :=
  if pyGetFirst inputs ("load_mode") (Val.vstr "full_checkpoint") =
      Val.vstr "separate_components"
  then
    match clipLoop inputs ["clip_model_1", "clip_model_2", "clip_model_3"] with
    | [] => RVal.rnone
    | n :: ns => RVal.rstrList (n :: ns)
  else RVal.rnone

/-- `get_clip_hashes`: map the clip hash over the clip names when those are
truthy (a non-empty list), else `None`. -/
def get_clip_hashes (cc : String → String) (inputs : Inputs) : RVal :=
  match get_clip_names inputs with
  | RVal.rstrList names =>
    if names.isEmpty then RVal.rnone else RVal.rstrList (names.map cc)
  | _ => RVal.rnone

/-- `get_clip_type`: the `clip_type` slot, only in separate-components mode. -/
def get_clip_type (inputs : Inputs) : RVal :=
  if pyGetFirst inputs ("load_mode") (Val.vstr "full_checkpoint") =
      Val.vstr "separate_components"
  then rvalOfVal (pyGetFirst inputs ("clip_type") Val.vnone)
  else RVal.rnone

/-- `get_unet_dtype`: the `weight_dtype` slot, only in separate-components
mode. -/
def get_unet_dtype (inputs : Inputs) : RVal :=
  if pyGetFirst inputs ("load_mode") (Val.vstr "full_checkpoint") =
      Val.vstr "separate_components"
  then rvalOfVal (pyGetFirst inputs ("weight_dtype") Val.vnone)
  else RVal.rnone

/-! ### Selectors of the `LoraMetadataHub` kind -/

/-- `get_hub_lora_names`: names of the parsed entries, `None` when the parse is
empty. -/
def get_hub_lora_names (inputs : Inputs) : RVal :=
  match parse_lora_hub_data inputs with
  | [] => RVal.rnone
  | d :: ds => RVal.rstrList ((d :: ds).map (fun e => e.name))

/-- `get_hub_lora_strengths`: strengths of the parsed entries, `None` when the
parse is empty.  The registry binds this one function to both strength
fields. -/
def get_hub_lora_strengths (inputs : Inputs) : RVal :=
  match parse_lora_hub_data inputs with
  | [] => RVal.rnone
  | d :: ds => RVal.rnumList ((d :: ds).map (fun e => e.strength))

/-- One iteration of the hash loop of `get_hub_lora_hashes`: `try`/`except`
around one entry's `calc_lora_hash` call, with a falsy result also mapped to
`None` (`h if h else None`). -/
def loraHashOne (cl : String → Except Unit String) (name : String) :
    Option String :=
  match cl name with
  | Except.error _ => none
  | Except.ok h => if h = "" then none else some h

/-- The accumulation loop of `get_hub_lora_hashes`. -/
def hashLoop (cl : String → Except Unit String) : List LoraEntry → List (Option String)
  | [] => []
  | d :: ds => loraHashOne cl d.name :: hashLoop cl ds

/-- `get_hub_lora_hashes`: `None` when the parse is empty, else the per-entry
hash results (one `try`/`except` per entry). -/
def get_hub_lora_hashes (cl : String → Except Unit String) (inputs : Inputs) : RVal :=
  match parse_lora_hub_data inputs with
  | [] => RVal.rnone
  | d :: ds => RVal.rhashList (hashLoop cl (d :: ds))

/-! ### The capture registry (`CAPTURE_FIELD_LIST`) -/

/-- Modelled from the spec: the `MetaField` enum of `modules/defs/meta.py` is
not part of the sources under study; only the members used by
`CAPTURE_FIELD_LIST` in `SantodanNodes.py` are modelled, as opaque tags. -/
inductive MetaField where
  | MODEL_NAME
  | MODEL_HASH
  | VAE_NAME
  | VAE_HASH
  | LORA_MODEL_NAME
  | LORA_MODEL_HASH
  | LORA_STRENGTH_MODEL
  | LORA_STRENGTH_CLIP
deriving DecidableEq

/-- A key of a per-kind field table: a `MetaField` member or a raw string
(the source dict mixes both). -/
inductive FieldKey where
  | meta (m : MetaField)
  | raw (s : String)
deriving DecidableEq

/-- `CAPTURE_FIELD_LIST["ModelAssembler"]`, in source order. -/
def CAPTURE_FIELD_LIST_ModelAssembler (cm cv cc : String → String) :
    List (FieldKey × (Inputs → RVal)) :=
  [ (FieldKey.meta MetaField.MODEL_NAME, get_model_name),
    (FieldKey.meta MetaField.MODEL_HASH, get_model_hash cm),
    (FieldKey.meta MetaField.VAE_NAME, get_vae_name),
    (FieldKey.meta MetaField.VAE_HASH, get_vae_hash cv),
    (FieldKey.raw "Clip Model Name(s)", get_clip_names),
    (FieldKey.raw "Clip Model Hash(es)", get_clip_hashes cc),
    (FieldKey.raw "Clip Type", get_clip_type),
    (FieldKey.raw "UNet Weight Type", get_unet_dtype) ]

/-- `CAPTURE_FIELD_LIST["LoraMetadataHub"]`, in source order. -/
def CAPTURE_FIELD_LIST_LoraMetadataHub (cl : String → Except Unit String) :
    List (FieldKey × (Inputs → RVal)) :=
  [ (FieldKey.meta MetaField.LORA_MODEL_NAME, get_hub_lora_names),
    (FieldKey.meta MetaField.LORA_MODEL_HASH, get_hub_lora_hashes cl),
    (FieldKey.meta MetaField.LORA_STRENGTH_MODEL, get_hub_lora_strengths),
    (FieldKey.meta MetaField.LORA_STRENGTH_CLIP, get_hub_lora_strengths) ]

/-- Dictionary lookup of a field's selector in a kind's table. -/
def resolveField (fields : List (FieldKey × (Inputs → RVal))) (k : FieldKey) :
    Option (Inputs → RVal) :=
  (fields.find? (fun p => p.1 == k)).map (fun p => p.2)

/-! ### `node.py`: dictionaries -/

/-- Python dict lookup on an association list (dict keys are unique, so the
first hit is the entry). -/
def pyLookup {α : Type} : List (String × α) → String → Option α
  | [], _ => none
  | p :: ps, k => if p.1 = k then some p.2 else pyLookup ps k

/-- Python `d[k] = v`: overwrite the entry in place if the key exists, else
append the pair. -/
def pyDictSet {α : Type} : List (String × α) → String → α → List (String × α)
  | [], k, v => [(k, v)]
  | p :: ps, k, v => if p.1 = k then (k, v) :: ps else p :: pyDictSet ps k v

/-! ### `CreateExtraMetaData.create_extra_metadata` -/

/-- Python truthiness of `keys_values.get(...)`: `None` and `""` are falsy. -/
def truthyO : Option String → Bool
  | none => false
  | some s => s != ""

/-- One slot of the `create_extra_metadata` loop: a truthy key stores the value
(defaulted to `""` when falsy); a truthy value without a key raises
`ValueError`; an all-falsy slot is skipped. -/
def extraSlot (d : List (String × String)) (key value : Option String) :
    Except Unit (List (String × String)) :=
  if truthyO key then
    Except.ok (pyDictSet d (key.getD "") (if truthyO value then value.getD "" else ""))
  else if truthyO value then Except.error ()
  else Except.ok d

/-- The `for i in range(1, 5)` loop: the first raising slot aborts. -/
def extraLoop :
    List (String × String) → List (Option String × Option String) →
      Except Unit (List (String × String))
  | d, [] => Except.ok d
  | d, (k, v) :: rest =>
    match extraSlot d k v with
    | Except.ok d2 => extraLoop d2 rest
    | Except.error e => Except.error e

/-- `create_extra_metadata`: process slots 1..4 in order over the incoming
dict (`extra_metadata or {}` is the caller's concern; here the dict is passed
explicitly).  `keyi`/`valuei` are `keys_values.get(...)` results. -/
def create_extra_metadata (extra_metadata : List (String × String))
    (key1 value1 key2 value2 key3 value3 key4 value4 : Option String) :
    Except Unit (List (String × String)) :=
  extraLoop extra_metadata [(key1, value1), (key2, value2), (key3, value3), (key4, value4)]

/-- `Except` success as a Boolean (`True` unless the call raised). -/
def exceptOk {α : Type} : Except Unit α → Bool
  | Except.ok _ => true
  | Except.error _ => false

/-! ### `SaveImageWithMetaData.prepare_pnginfo` -/

/-- A value of the aggregated parameter record: the record under study holds
strings and the integer batch fields. -/
inductive PVal where
  | pstr (s : String)
  | pnat (n : Nat)
deriving DecidableEq

/-- The aggregated parameter record (`pnginfo_dict`). -/
abbrev PDict := List (String × PVal)

/-- Python `d.get(k, dflt)`. -/
def dictGet (d : PDict) (k : String) (dflt : PVal) : PVal :=
  (pyLookup d k).getD dflt

/-- Python `str(...)` on a record value. -/
def pyStrPVal : PVal → String
  | PVal.pstr s => s
  | PVal.pnat n => toString n

/-- A record value used where Python calls a `str` method on it (`.split`,
`.replace`, `os.path.basename`): a non-string raises, modelled as `Except`. -/
def expectStr : PVal → Except Unit String
  | PVal.pstr s => Except.ok s
  | PVal.pnat _ => Except.error ()

/-- Result of `prepare_pnginfo` when the metadata scope is not `"none"`:
`base_after` is the caller's `pnginfo_dict` after the call (the source never
writes through it — it only calls `.copy()`), `copy` is the local
`pnginfo_copy`, and `texts` the `add_text` entries of the returned metadata. -/
structure PrepareOut where
  base_after : PDict
  copy : PDict
  texts : List (String × String)
deriving DecidableEq

/-- `prepare_pnginfo`.  `genParams` stands for `Capture.gen_parameters_str`
(outside the sources under study), `prompt` for the already-serialized
`json.dumps(prompt)` (absent when `prompt is None`), and `extra_pnginfo` for
the extra entries with values already serialized; an empty `extra_pnginfo`
list is falsy and contributes nothing either way. -/
def prepare_pnginfo (genParams : PDict → String)
    (metadata : List (String × String)) (pnginfo_dict : PDict)
    (batch_number total_images : Nat) (prompt : Option String)
    (extra_pnginfo : List (String × String)) (metadata_scope : String) :
    Option PrepareOut :=
  if metadata_scope = "none" then none
  else
    some
      { base_after := pnginfo_dict
        copy :=
          if total_images > 1 then
            pyDictSet (pyDictSet pnginfo_dict ("Batch index") (PVal.pnat batch_number))
              ("Batch size") (PVal.pnat total_images)
          else pnginfo_dict
        texts :=
          (let c1 :=
            if total_images > 1 then
              pyDictSet (pyDictSet pnginfo_dict ("Batch index") (PVal.pnat batch_number))
                ("Batch size") (PVal.pnat total_images)
            else pnginfo_dict
          let m1 :=
            if metadata_scope = "full" then metadata ++ [("parameters", genParams c1)]
            else metadata
          let m2 :=
            match prompt with
            | some p =>
              if metadata_scope ≠ "workflow_only" then m1 ++ [("prompt", p)] else m1
            | none => m1
          m2 ++ extra_pnginfo) }

/-- The value of the caller's shared `pnginfo_dict` variable after one
per-image `prepare_pnginfo` call. -/
def prepareBase (genParams : PDict → String) (metadata : List (String × String))
    (total_images : Nat) (prompt : Option String)
    (extra_pnginfo : List (String × String)) (metadata_scope : String)
    (b : PDict) (n : Nat) : PDict :=
  match prepare_pnginfo genParams metadata b n total_images prompt extra_pnginfo
      metadata_scope with
  | some out => out.base_after
  | none => b

/-! ### `SaveImageWithMetaData.format_filename` -/

/-- The `datetime.now()` fields consumed by the `%date%` placeholder. -/
structure DateParts where
  year : Nat
  month : Nat
  day : Nat
  hour : Nat
  minute : Nat
  second : Nat

/-- Python `f"{n:02d}"`. -/
def pad2 (n : Nat) : String := if n < 10 then "0" ++ toString n else toString n

/-- The `date_table` dict, in insertion order. -/
def dateTable (now : DateParts) : List (String × String) :=
  [("yyyy", toString now.year), ("MM", pad2 now.month), ("dd", pad2 now.day),
   ("hh", pad2 now.hour), ("mm", pad2 now.minute), ("ss", pad2 now.second)]

/-- Loop of Python `s.replace(pat, rep)` (all occurrences, left to right, the
replacement is not rescanned).  `fuel` only bounds the recursion; each step
strictly shrinks the text (`replaceGo_congr` below). -/
def replaceGo (pat rep : List Char) : Nat → List Char → List Char
  | 0, s => s
  | fuel + 1, s =>
    match s with
    | [] => []
    | c :: cs =>
      if pat ≠ [] ∧ pat.isPrefixOf (c :: cs) then
        rep ++ replaceGo pat rep fuel ((c :: cs).drop pat.length)
      else c :: replaceGo pat rep fuel cs

/-- Python `s.replace(pat, rep)` for a non-empty `pat`. -/
def replaceAll (s pat rep : List Char) : List Char :=
  replaceGo pat rep (s.length + 1) s

/-- Scanning loop of `re.findall(r"(%[^%]+%)", filename)`: at a `%`, a token
extends to the next `%` and needs a non-empty inside; on failure the scan
advances one character.  `fuel` only bounds the recursion
(`findTokensGo_congr` below). -/
def findTokensGo : Nat → List Char → List (List Char)
  | 0, _ => []
  | fuel + 1, cs =>
    match cs with
    | [] => []
    | c :: rest =>
      if c = '%' then
        match rest.dropWhile (fun x => x ≠ '%') with
        | '%' :: rest2 =>
          if (rest.takeWhile (fun x => x ≠ '%')).isEmpty then findTokensGo fuel rest
          else
            ('%' :: (rest.takeWhile (fun x => x ≠ '%') ++ ['%'])) ::
              findTokensGo fuel rest2
        | _ => findTokensGo fuel rest
      else findTokensGo fuel rest

/-- Python `re.findall(r"(%[^%]+%)", s)`. -/
def findTokens (cs : List Char) : List (List Char) :=
  findTokensGo (cs.length + 1) cs

/-- Python `s.split(sep)` for a single-character separator (empty parts
kept). -/
def splitChars (sep : Char) : List Char → List (List Char)
  | [] => [[]]
  | c :: cs =>
    if c = sep then [] :: splitChars sep cs
    else
      match splitChars sep cs with
      | a :: r => (c :: a) :: r
      | [] => [[c]]

/-- Python `segment.strip("%")`. -/
def stripPercent (cs : List Char) : List Char :=
  ((cs.dropWhile (fun c => c = '%')).reverse.dropWhile (fun c => c = '%')).reverse

/-- Python `int(parts[1]) if len(parts) > 1 and parts[1].isdigit() else None`. -/
def lenModifier (parts : List (List Char)) : Option Nat :=
  match parts.get? 1 with
  | some p1 => if p1 ≠ [] ∧ p1.all Char.isDigit then some (digitsNat p1) else none
  | none => none

/-- Python `os.path.basename` (POSIX): the part after the last `/`. -/
def basenameStr (s : String) : String :=
  String.mk ((s.toList.reverse.takeWhile (fun c => c ≠ '/')).reverse)

/-- Stem of Python `os.path.splitext` on a basename: drop the extension at the
last dot, unless every character before that dot is itself a dot (leading-dot
files keep their name). -/
def splitextStem (s : String) : String :=
  match s.toList.reverse.dropWhile (fun c => c ≠ '.') with
  | [] => s
  | _ :: stemRev =>
    if stemRev.all (fun c => c = '.') then s else String.mk stemRev.reverse

/-- The `for k, v in date_table.items(): date_format = date_format.replace(k, v)`
loop. -/
def applyDateTable : List (String × String) → List Char → List Char
  | [], f => f
  | (k, v) :: rest, f => applyDateTable rest (replaceAll f k.toList v.toList)

/-- The replacement text for one `%...%` segment: `Except.error` models the
exceptions Python would raise (a `str` method on a non-string value, a missing
`x`-half of the size); `none` means the token key is unrecognized and the
segment stays verbatim. -/
def segmentValue (d : PDict) (now : DateParts) (seg : List Char) :
    Except Unit (Option String) :=
  match splitChars ':' (stripPercent seg) with
  | [] => Except.ok none
  | key :: mods =>
    if key = ("seed").toList then
      Except.ok (some (pyStrPVal (dictGet d ("Seed") (PVal.pstr ""))))
    else if key = ("width").toList ∨ key = ("height").toList then
      match expectStr (dictGet d ("Size") (PVal.pstr "x")) with
      | Except.error e => Except.error e
      | Except.ok sz =>
        match (splitChars 'x' sz.toList).get?
            (if key = ("width").toList then 0 else 1) with
        | some v => Except.ok (some (String.mk v))
        | none => Except.error ()
    else if key = ("pprompt").toList ∨ key = ("nprompt").toList then
      match expectStr (dictGet d
          (if key = ("pprompt").toList then "Positive prompt" else "Negative prompt")
          (PVal.pstr "")) with
      | Except.error e => Except.error e
      | Except.ok p0 =>
        match lenModifier (key :: mods) with
        | some n =>
          if n ≠ 0 then
            Except.ok (some (pyStrip (String.mk
              ((replaceAll p0.toList ['\n'] [' ']).take n))))
          else Except.ok (some (pyStrip (String.mk (replaceAll p0.toList ['\n'] [' ']))))
        | none => Except.ok (some (pyStrip (String.mk (replaceAll p0.toList ['\n'] [' ']))))
    else if key = ("model").toList then
      match expectStr (dictGet d ("Model") (PVal.pstr "")) with
      | Except.error e => Except.error e
      | Except.ok m0 =>
        match lenModifier (key :: mods) with
        | some n =>
          if n ≠ 0 then
            Except.ok (some (String.mk ((splitextStem (basenameStr m0)).toList.take n)))
          else Except.ok (some (splitextStem (basenameStr m0)))
        | none => Except.ok (some (splitextStem (basenameStr m0)))
    else if key = ("date").toList then
      match mods with
      | fmt :: _ => Except.ok (some (String.mk (applyDateTable (dateTable now) fmt)))
      | [] =>
        Except.ok (some (String.mk (applyDateTable (dateTable now)
          (("yyyyMMddhhmmss").toList))))
    else Except.ok none

/-- The replacement loop of `format_filename`: segments are the tokens found
in the original template, each replaced (all occurrences) in the evolving
text. -/
def applySegments (d : PDict) (now : DateParts) :
    List (List Char) → List Char → Except Unit (List Char)
  | [], fn => Except.ok fn
  | seg :: rest, fn =>
    match segmentValue d now seg with
    | Except.error e => Except.error e
    | Except.ok none => applySegments d now rest fn
    | Except.ok (some rep) => applySegments d now rest (replaceAll fn seg rep.toList)

/-- `format_filename(filename, pnginfo_dict)` at clock reading `now`. -/
def format_filename (filename : String) (pnginfo_dict : PDict) (now : DateParts) :
    Except Unit String :=
  match applySegments pnginfo_dict now (findTokens filename.toList) filename.toList with
  | Except.ok cs => Except.ok (String.mk cs)
  | Except.error e => Except.error e

/-- Equality of `Except` results is decidable (used to evaluate the embedded
fallible functions on concrete inputs). -/
instance exceptDecEq {eps alpha : Type} [DecidableEq eps] [DecidableEq alpha] :
    DecidableEq (Except eps alpha) := fun x y =>
  match x, y with
  | Except.ok a, Except.ok b =>
    if h : a = b then isTrue (by rw [h])
    else isFalse (fun hh => by cases hh; exact h rfl)
  | Except.error a, Except.error b =>
    if h : a = b then isTrue (by rw [h])
    else isFalse (fun hh => by cases hh; exact h rfl)
  | Except.ok a, Except.error b => isFalse (fun hh => by cases hh)
  | Except.error a, Except.ok b => isFalse (fun hh => by cases hh)

/-- A resolved-input context given by a finite slot table. -/
def ctxOf (entries : List (String × List Val)) : Inputs :=
  fun k => pyLookup entries k

/-- A stand-in pure hash function for concrete evaluations. -/
def idStr : String → String := fun s => s

/-- Hub context with the example string of the spec in slot 1. -/
def ctxC1 : Inputs :=
  ctxOf [("loras_1", [Val.vstr ("loraA.safetensors (0.8), loraB.safetensors (-0.3)")])]

/-- Hub context with two entries in slot 1 (for the hash-isolation witness). -/
def ctxC2 : Inputs := ctxOf [("loras_1", [Val.vstr ("A (1.0), B (2.0)")])]

/-- A lora hash function that raises on the entry named `A`. -/
def clC2 : String → Except Unit String := fun s =>
  if s = "A" then Except.error () else Except.ok ("h" ++ s)

/-- A lora hash function that never raises. -/
def clC2ok : String → Except Unit String := fun s => Except.ok ("h" ++ s)

/-- Loader context in full-checkpoint mode with the component slots
nevertheless populated. -/
def ctx3 : Inputs :=
  ctxOf [("load_mode", [Val.vstr ("full_checkpoint")]),
         ("vae_model", [Val.vstr ("vae.safetensors")]),
         ("clip_model_1", [Val.vstr ("clipA")]),
         ("clip_type", [Val.vstr ("sdxl")]),
         ("weight_dtype", [Val.vstr ("fp8")])]

/-- A context with every input slot absent. -/
def ctxAbs : Inputs := fun _ => none

/-- Loader context with only the checkpoint slot present (no `load_mode`). -/
def ctx10 : Inputs := ctxOf [("ckpt_name", [Val.vstr ("ck.safetensors")])]

/-- Loader context whose checkpoint slot holds the empty string. -/
def ctxC8 : Inputs := ctxOf [("ckpt_name", [Val.vstr ("")])]

/-- A concrete model hash function. -/
def cmC8 : String → String := fun s => "hash:" ++ s

/-- The parameter record of the templating example. -/
def d6 : PDict :=
  [("Seed", PVal.pstr ("12345")), ("Size", PVal.pstr ("512x768")),
   ("Model", PVal.pstr ("path/to/myModel.safetensors"))]

/-- A concrete parameter record for the batch-copy witness. -/
def d5 : PDict := [("Seed", PVal.pstr ("1"))]

/-- A concrete stand-in for `Capture.gen_parameters_str`. -/
def gp0 : PDict → String := fun _ => ""

/-! ## Helper lemmas -/

theorem dropWhile_len_le (p : Char → Bool) :
    ∀ l : List Char, (l.dropWhile p).length ≤ l.length := by
  intro l
  induction l with
  | nil => simp
  | cons c cs ih =>
    by_cases h : p c
    · simp [List.dropWhile, h]
      exact Nat.le_succ_of_le ih
    · simp [List.dropWhile, h]

theorem spanDigits_snd_le : ∀ cs : List Char, (spanDigits cs).2.length ≤ cs.length := by
  intro cs
  induction cs with
  | nil => simp [spanDigits]
  | cons c cs ih =>
    simp only [spanDigits]
    split
    · exact Nat.le_succ_of_le ih
    · exact Nat.le_refl _

theorem splitSign_snd_le : ∀ cs : List Char, (splitSign cs).2.length ≤ cs.length := by
  intro cs
  cases cs with
  | nil => simp [splitSign]
  | cons c cs =>
    simp only [splitSign]
    split
    · exact Nat.le_succ _
    · exact Nat.le_refl _

theorem numFrac_len {sgn d1 d2 cs3 : List Char} {x : String × List Char}
    (h : numFrac sgn d1 d2 cs3 = some x) : x.2.length < cs3.length := by
  unfold numFrac at h
  split at h
  · cases h
  · split at h
    · cases h; simp
    · cases h

theorem numAfterInt_len {sgn d1 cs2 : List Char} {x : String × List Char}
    (h : numAfterInt sgn d1 cs2 = some x) : x.2.length < cs2.length := by
  unfold numAfterInt at h
  split at h
  · rename_i cs2t
    calc x.2.length < (spanDigits cs2t).2.length := numFrac_len h
      _ ≤ cs2t.length := spanDigits_snd_le cs2t
      _ < cs2t.length + 1 := Nat.lt_succ_self _
  · split at h
    · cases h
    · cases h; simp
  · cases h

theorem matchNumParen_len {cs : List Char} {x : String × List Char}
    (h : matchNumParen cs = some x) : x.2.length < cs.length := by
  unfold matchNumParen at h
  calc x.2.length < (spanDigits (splitSign cs).2).2.length := numAfterInt_len h
    _ ≤ (splitSign cs).2.length := spanDigits_snd_le _
    _ ≤ cs.length := splitSign_snd_le cs

theorem tryTail_len {cs : List Char} {x : String × List Char}
    (h : tryTail cs = some x) : x.2.length < cs.length := by
  unfold tryTail at h
  split at h
  · rename_i c1 c2 rest
    split at h
    · have := matchNumParen_len h
      simp only [List.length_cons]
      omega
    · cases h
  · cases h

theorem tryMatchFrom_len :
    ∀ (cs acc : List Char) {x : (String × String) × List Char},
      tryMatchFrom acc cs = some x → x.2.length < cs.length := by
  intro cs
  induction cs with
  | nil =>
    intro acc x h
    rw [tryMatchFrom] at h
    cases htt : tryTail ([] : List Char) with
    | some y => cases htt
    | none => rw [htt] at h; cases h
  | cons c rest ih =>
    intro acc x h
    rw [tryMatchFrom] at h
    cases htt : tryTail (c :: rest) with
    | some y =>
      rw [htt] at h
      cases h
      exact tryTail_len htt
    | none =>
      rw [htt] at h
      simp only at h
      split at h
      · cases h
      · have := ih _ h
        simp only [List.length_cons]
        omega

theorem tryMatchAt_len {cs : List Char} {x : (String × String) × List Char}
    (h : tryMatchAt cs = some x) : x.2.length < cs.length := by
  unfold tryMatchAt at h
  split at h
  · cases h
  · split at h
    · cases h
    · rename_i c rest _
      have := tryMatchFrom_len _ _ h
      simp only [List.length_cons]
      omega

theorem findallGo_congr :
    ∀ f1 : Nat, ∀ (cs : List Char) (f2 : Nat),
      cs.length < f1 → cs.length < f2 → findallGo f1 cs = findallGo f2 cs := by
  intro f1
  induction f1 with
  | zero => intro cs f2 h1 _; exact absurd h1 (Nat.not_lt_zero _)
  | succ n ih =>
    intro cs f2 h1 h2
    cases f2 with
    | zero => exact absurd h2 (Nat.not_lt_zero _)
    | succ m =>
      match cs with
      | [] => rfl
      | c :: rest =>
        simp only [List.length_cons] at h1 h2
        cases hm : tryMatchAt (c :: rest) with
        | some x =>
          have hx := tryMatchAt_len hm
          simp only [List.length_cons] at hx
          simp only [findallGo, hm]
          rw [ih x.2 m (by omega) (by omega)]
        | none =>
          simp only [findallGo, hm]
          exact ih rest m (by omega) (by omega)

theorem tryTail_none_of_no_paren : ∀ cs : List Char, '(' ∉ cs → tryTail cs = none := by
  intro cs h
  match cs with
  | [] => rfl
  | [c] => rfl
  | c1 :: c2 :: rest =>
    have hc2 : c2 ≠ '(' := by
      intro he
      exact h (by simp [he])
    have hb : (isSpaceChar c1 && (c2 == '(')) = false := by
      simp [hc2]
    simp [tryTail, hb]

theorem tryMatchFrom_none_of_no_paren :
    ∀ (cs acc : List Char), '(' ∉ cs → tryMatchFrom acc cs = none := by
  intro cs
  induction cs with
  | nil =>
    intro acc h
    rw [tryMatchFrom]
    rw [tryTail_none_of_no_paren _ h]
  | cons c rest ih =>
    intro acc h
    rw [tryMatchFrom]
    rw [tryTail_none_of_no_paren _ h]
    simp only
    split
    · rfl
    · exact ih _ (fun hm => h (List.mem_cons_of_mem _ hm))

theorem tryMatchAt_none_of_no_paren :
    ∀ cs : List Char, '(' ∉ cs → tryMatchAt cs = none := by
  intro cs h
  cases cs with
  | nil => rfl
  | cons c rest =>
    simp only [tryMatchAt]
    split
    · rfl
    · exact tryMatchFrom_none_of_no_paren rest [c]
        (fun hm => h (List.mem_cons_of_mem _ hm))

theorem findallGo_no_paren :
    ∀ (fuel : Nat) (cs : List Char), '(' ∉ cs → findallGo fuel cs = [] := by
  intro fuel
  induction fuel with
  | zero => intro cs _; rfl
  | succ n ih =>
    intro cs h
    match cs with
    | [] => rfl
    | c :: rest =>
      simp only [findallGo, tryMatchAt_none_of_no_paren _ h]
      exact ih rest (fun hm => h (List.mem_cons_of_mem _ hm))

theorem parseLoraStr_no_paren : ∀ s : String, '(' ∉ s.toList → parseLoraStr s = [] := by
  intro s h
  unfold parseLoraStr findallLora
  rw [findallGo_no_paren _ _ h]
  rfl

theorem hashLoop_eq_map (cl : String → Except Unit String) :
    ∀ l : List LoraEntry, hashLoop cl l = l.map (fun e => loraHashOne cl e.name) := by
  intro l
  induction l with
  | nil => rfl
  | cons d ds ih => simp [hashLoop, ih]

theorem extraLoop_err_iff :
    ∀ (pairs : List (Option String × Option String)) (d : List (String × String)),
      exceptOk (extraLoop d pairs) = false ↔
        ∃ kv ∈ pairs, truthyO kv.1 = false ∧ truthyO kv.2 = true := by
  intro pairs
  induction pairs with
  | nil => intro d; simp [extraLoop, exceptOk]
  | cons kv rest ih =>
    intro d
    obtain ⟨k, v⟩ := kv
    cases hk : truthyO k with
    | true =>
      have hs : extraSlot d k v =
          Except.ok (pyDictSet d (k.getD "") (if truthyO v then v.getD "" else "")) := by
        simp [extraSlot, hk]
      simp [extraLoop, hs, ih, hk]
    | false =>
      cases hv : truthyO v with
      | true =>
        have hs : extraSlot d k v = Except.error () := by
          simp [extraSlot, hk, hv]
        simp [extraLoop, hs, exceptOk, hk, hv]
      | false =>
        have hs : extraSlot d k v = Except.ok d := by
          simp [extraSlot, hk, hv]
        simp [extraLoop, hs, ih, hk, hv]

theorem pyLookup_set_self {α : Type} :
    ∀ (d : List (String × α)) (k : String) (v : α),
      pyLookup (pyDictSet d k v) k = some v := by
  intro d
  induction d with
  | nil => intro k v; simp [pyDictSet, pyLookup]
  | cons p ps ih =>
    intro k v
    obtain ⟨a, b⟩ := p
    simp only [pyDictSet]
    by_cases h : a = k
    · simp [if_pos h, pyLookup]
    · simp only [if_neg h, pyLookup, if_neg h, ih]

theorem pyLookup_set_other {α : Type} :
    ∀ (d : List (String × α)) (k kx : String) (v : α), kx ≠ k →
      pyLookup (pyDictSet d k v) kx = pyLookup d kx := by
  intro d
  induction d with
  | nil =>
    intro k kx v h
    simp only [pyDictSet, pyLookup]
    rw [if_neg (fun he => h he.symm)]
  | cons p ps ih =>
    intro k kx v h
    obtain ⟨a, b⟩ := p
    simp only [pyDictSet]
    by_cases hp : a = k
    · subst hp
      simp only [if_pos rfl, pyLookup]
      rw [if_neg (fun he => h he.symm), if_neg (fun he => h he.symm)]
    · simp only [if_neg hp, pyLookup]
      by_cases hx : a = kx
      · simp [hx]
      · simp [hx, ih _ _ _ h]

theorem ctxOf_wf :
    ∀ entries : List (String × List Val),
      (∀ p ∈ entries, p.2 ≠ []) → WFInputs (ctxOf entries) := by
  intro entries h k l hk
  induction entries with
  | nil => cases hk
  | cons p ps ih =>
    unfold ctxOf at hk ih
    simp only [pyLookup] at hk
    split at hk
    · cases hk
      exact h p (List.mem_cons_self _ _)
    · exact ih (fun q hq => h q (List.mem_cons_of_mem _ hq)) hk

theorem prepareBase_eq (gp : PDict → String) (md : List (String × String))
    (total : Nat) (p : Option String) (ep : List (String × String))
    (scope : String) (b : PDict) (n : Nat) :
    prepareBase gp md total p ep scope b n = b := by
  unfold prepareBase prepare_pnginfo
  by_cases h : scope = "none" <;> simp [h]

theorem replaceGo_congr (pat rep : List Char) :
    ∀ f1 : Nat, ∀ (s : List Char) (f2 : Nat),
      s.length < f1 → s.length < f2 →
      replaceGo pat rep f1 s = replaceGo pat rep f2 s := by
  intro f1
  induction f1 with
  | zero => intro s f2 h1 _; exact absurd h1 (Nat.not_lt_zero _)
  | succ n ih =>
    intro s f2 h1 h2
    cases f2 with
    | zero => exact absurd h2 (Nat.not_lt_zero _)
    | succ m =>
      cases s with
      | nil => rfl
      | cons c cs =>
        simp only [List.length_cons] at h1 h2
        simp only [replaceGo]
        split
        · rename_i hcond
          have hplen : 1 ≤ pat.length := by
            cases hp : pat with
            | nil => exact absurd hp hcond.1
            | cons a as => simp [hp]
          rw [ih _ m (by simp only [List.length_drop, List.length_cons]; omega)
            (by simp only [List.length_drop, List.length_cons]; omega)]
        · rw [ih cs m (by omega) (by omega)]

theorem dropWhile_percent_head {d : Char} {rest rest2 : List Char}
    (h : rest.dropWhile (fun x => x ≠ '%') = d :: rest2) : d = '%' := by
  induction rest with
  | nil => cases h
  | cons a as ih =>
    rw [List.dropWhile_cons] at h
    split at h
    · exact ih h
    · rename_i hna
      cases h
      simpa using hna

theorem findTokensGo_congr :
    ∀ f1 : Nat, ∀ (cs : List Char) (f2 : Nat),
      cs.length < f1 → cs.length < f2 → findTokensGo f1 cs = findTokensGo f2 cs := by
  intro f1
  induction f1 with
  | zero => intro cs f2 h1 _; exact absurd h1 (Nat.not_lt_zero _)
  | succ n ih =>
    intro cs f2 h1 h2
    cases f2 with
    | zero => exact absurd h2 (Nat.not_lt_zero _)
    | succ m =>
      cases cs with
      | nil => rfl
      | cons c rest =>
        simp only [List.length_cons] at h1 h2
        simp only [findTokensGo]
        split
        · cases hdw : rest.dropWhile (fun x => x ≠ '%') with
          | nil =>
            simp only [hdw]
            exact ih rest m (by omega) (by omega)
          | cons d rest2 =>
            have hd : d = '%' := dropWhile_percent_head hdw
            have hlen : rest2.length < rest.length := by
              have := dropWhile_len_le (fun x => x ≠ '%') rest
              rw [hdw] at this
              simp only [List.length_cons] at this
              omega
            subst hd
            simp only [hdw]
            split
            · exact ih rest m (by omega) (by omega)
            · rw [ih rest2 m (by omega) (by omega)]
        · exact ih rest m (by omega) (by omega)

/-! ## Claim theorems -/

/-- C1: the lora-hub parser scans the four string slots `loras_1..loras_4` in
fixed numeric order, appending each slot's entries after the previous slot's;
a slot text without any parenthesized group yields no entry; and on the spec's
example strings, slot 1 holding the two well-formed segments yields exactly the
two stated entries (names whitespace-trimmed, signed strengths parsed, with a
leading `+` accepted), while interposing the malformed segment `loraC` leaves
the sibling entries untouched. -/
theorem c1_lora_hub_scan :
    (∀ inputs : Inputs,
      parse_lora_hub_data inputs =
        slotLoras inputs 1 ++ slotLoras inputs 2 ++ slotLoras inputs 3 ++
          slotLoras inputs 4) ∧
    (∀ s : String, '(' ∉ s.toList → parseLoraStr s = []) ∧
    parseLoraStr ("loraA.safetensors (0.8), loraB.safetensors (-0.3)") =
      [⟨"loraA.safetensors", mkRat 4 5⟩, ⟨"loraB.safetensors", -mkRat 3 10⟩] ∧
    parseLoraStr ("loraA.safetensors (0.8), loraC, loraB.safetensors (-0.3)") =
      [⟨"loraA.safetensors", mkRat 4 5⟩, ⟨"loraB.safetensors", -mkRat 3 10⟩] ∧
    parseLoraStr ("lora D (+0.5)") = [⟨"lora D", mkRat 1 2⟩] ∧
    parse_lora_hub_data ctxC1 =
      [⟨"loraA.safetensors", mkRat 4 5⟩, ⟨"loraB.safetensors", -mkRat 3 10⟩] :=
  ⟨fun _ => rfl, parseLoraStr_no_paren, by decide, by decide, by decide, by decide⟩

/-- C1 witness: the malformed segment `loraC` has no parenthesized number and
contributes no entry. -/
theorem c1_lora_hub_scan_w :
    '(' ∉ ("loraC").toList ∧ parseLoraStr ("loraC") = [] :=
  ⟨by decide, c1_lora_hub_scan.2.1 ("loraC") (by decide)⟩

/-- C2: the lora-hub hash selector resolves hashes independently per entry:
the result is a full-length list, each position is a function of the hash
call on that entry's name alone, a raising hash call makes that position
`None`, and two hash functions agreeing on one entry's name agree on that
position of the result regardless of their behavior on sibling entries. -/
theorem c2_hub_lora_hash_isolation (cl cl2 : String → Except Unit String)
    (inputs : Inputs) (hne : parse_lora_hub_data inputs ≠ []) :
    ∃ l : List (Option String),
      get_hub_lora_hashes cl inputs = RVal.rhashList l ∧
      l.length = (parse_lora_hub_data inputs).length ∧
      ∀ (j : Nat) (e : LoraEntry), (parse_lora_hub_data inputs)[j]? = some e →
        l[j]? = some (loraHashOne cl e.name) ∧
        (cl e.name = Except.error () → l[j]? = some none) ∧
        (cl e.name = cl2 e.name →
          ∀ l2 : List (Option String),
            get_hub_lora_hashes cl2 inputs = RVal.rhashList l2 → l2[j]? = l[j]?) := by
  obtain ⟨d, ds, hd⟩ := List.exists_cons_of_ne_nil hne
  refine ⟨hashLoop cl (d :: ds), by simp [get_hub_lora_hashes, hd], ?_, ?_⟩
  · rw [hashLoop_eq_map, hd]
    simp
  · intro j e hj
    rw [hd] at hj
    refine ⟨?_, ?_, ?_⟩
    · rw [hashLoop_eq_map, List.getElem?_map, hj]
      rfl
    · intro herr
      rw [hashLoop_eq_map, List.getElem?_map, hj]
      simp [loraHashOne, herr]
    · intro heq l2 hl2
      simp only [get_hub_lora_hashes, hd] at hl2
      cases hl2
      rw [hashLoop_eq_map, hashLoop_eq_map, List.getElem?_map, List.getElem?_map, hj]
      simp [loraHashOne, ← heq]

/-- C2 witness: on a hub context with two entries and a hash function that
raises on the first entry, positions are resolved independently. -/
theorem c2_hub_lora_hash_isolation_w :
    parse_lora_hub_data ctxC2 ≠ [] ∧
    (∃ l : List (Option String),
      get_hub_lora_hashes clC2 ctxC2 = RVal.rhashList l ∧
      l.length = (parse_lora_hub_data ctxC2).length ∧
      ∀ (j : Nat) (e : LoraEntry), (parse_lora_hub_data ctxC2)[j]? = some e →
        l[j]? = some (loraHashOne clC2 e.name) ∧
        (clC2 e.name = Except.error () → l[j]? = some none) ∧
        (clC2 e.name = clC2ok e.name →
          ∀ l2 : List (Option String),
            get_hub_lora_hashes clC2ok ctxC2 = RVal.rhashList l2 → l2[j]? = l[j]?)) :=
  ⟨by decide, c2_hub_lora_hash_isolation clC2 clC2ok ctxC2 (by decide)⟩

/-- Concrete evaluation supporting the hash-isolation property: the hash of
entry `A` raises and resolves to `None`; sibling `B` still hashes. -/
theorem hub_hash_error_demo :
    get_hub_lora_hashes clC2 ctxC2 = RVal.rhashList [none, some ("hB")] := by
  decide

/-- C3: for every well-formed resolved-input context of the loader kind whose
(defaulted) `load_mode` is `"full_checkpoint"`, the vae name, vae hash, clip
names, clip hashes, clip type and unet weight-dtype selectors all return null,
regardless of the contents of those slots; more generally these fields are
populated only when the mode equals the sentinel `"separate_components"`. -/
theorem c3_mode_gated_fields (cv cc : String → String) (inputs : Inputs)
    (hwf : WFInputs inputs) :
    (pyGetFirst inputs ("load_mode") (Val.vstr "full_checkpoint") =
        Val.vstr "full_checkpoint" →
      get_vae_name inputs = RVal.rnone ∧ get_vae_hash cv inputs = RVal.rnone ∧
      get_clip_names inputs = RVal.rnone ∧ get_clip_hashes cc inputs = RVal.rnone ∧
      get_clip_type inputs = RVal.rnone ∧ get_unet_dtype inputs = RVal.rnone) ∧
    (pyGetFirst inputs ("load_mode") (Val.vstr "full_checkpoint") ≠
        Val.vstr "separate_components" →
      get_vae_name inputs = RVal.rnone ∧ get_vae_hash cv inputs = RVal.rnone ∧
      get_clip_names inputs = RVal.rnone ∧ get_clip_hashes cc inputs = RVal.rnone ∧
      get_clip_type inputs = RVal.rnone ∧ get_unet_dtype inputs = RVal.rnone) := by
  have key : pyGetFirst inputs ("load_mode") (Val.vstr "full_checkpoint") ≠
      Val.vstr "separate_components" →
      get_vae_name inputs = RVal.rnone ∧ get_vae_hash cv inputs = RVal.rnone ∧
      get_clip_names inputs = RVal.rnone ∧ get_clip_hashes cc inputs = RVal.rnone ∧
      get_clip_type inputs = RVal.rnone ∧ get_unet_dtype inputs = RVal.rnone := by
    intro hm
    have hvn : get_vae_name inputs = RVal.rnone := by simp [get_vae_name, hm]
    have hcn : get_clip_names inputs = RVal.rnone := by simp [get_clip_names, hm]
    exact ⟨hvn, by simp [get_vae_hash, hvn], hcn, by simp [get_clip_hashes, hcn],
      by simp [get_clip_type, hm], by simp [get_unet_dtype, hm]⟩
  exact ⟨fun hfull => key (by rw [hfull]; simp), key⟩

/-- C3 witness: a full-checkpoint context with populated vae/clip/dtype slots
still resolves all six mode-gated fields to null. -/
theorem c3_mode_gated_fields_w :
    WFInputs ctx3 ∧
    pyGetFirst ctx3 ("load_mode") (Val.vstr "full_checkpoint") =
      Val.vstr "full_checkpoint" ∧
    (get_vae_name ctx3 = RVal.rnone ∧ get_vae_hash idStr ctx3 = RVal.rnone ∧
     get_clip_names ctx3 = RVal.rnone ∧ get_clip_hashes idStr ctx3 = RVal.rnone ∧
     get_clip_type ctx3 = RVal.rnone ∧ get_unet_dtype ctx3 = RVal.rnone) :=
  ⟨ctxOf_wf _ (by decide), by decide,
   (c3_mode_gated_fields idStr idStr ctx3 (ctxOf_wf _ (by decide))).1 (by decide)⟩

/-- C4: `create_extra_metadata` raises exactly when some slot has a truthy
value with a falsy (empty or missing) key; a slot with a non-empty key stores
the pair even when the value is empty or missing (stored as the empty string);
a slot with neither key nor value is skipped without error. -/
theorem c4_extra_metadata_slots :
    (∀ (extra : List (String × String)) (k1 v1 k2 v2 k3 v3 k4 v4 : Option String),
      exceptOk (create_extra_metadata extra k1 v1 k2 v2 k3 v3 k4 v4) = false ↔
        ((truthyO k1 = false ∧ truthyO v1 = true) ∨
         (truthyO k2 = false ∧ truthyO v2 = true) ∨
         (truthyO k3 = false ∧ truthyO v3 = true) ∨
         (truthyO k4 = false ∧ truthyO v4 = true))) ∧
    (∀ (extra : List (String × String)) (k : String), k ≠ "" →
      create_extra_metadata extra (some k) (some ("")) none none none none none none =
        Except.ok (pyDictSet extra k ("")) ∧
      create_extra_metadata extra (some k) none none none none none none none =
        Except.ok (pyDictSet extra k (""))) ∧
    (∀ extra : List (String × String),
      create_extra_metadata extra none none none none none none none none =
        Except.ok extra) := by
  refine ⟨?_, ?_, fun extra => rfl⟩
  · intro extra k1 v1 k2 v2 k3 v3 k4 v4
    rw [create_extra_metadata, extraLoop_err_iff]
    simp only [List.mem_cons, List.not_mem_nil, or_false]
    constructor
    · rintro ⟨kv, hmem, hfk, htv⟩
      rcases hmem with rfl | rfl | rfl | rfl
      · exact Or.inl ⟨hfk, htv⟩
      · exact Or.inr (Or.inl ⟨hfk, htv⟩)
      · exact Or.inr (Or.inr (Or.inl ⟨hfk, htv⟩))
      · exact Or.inr (Or.inr (Or.inr ⟨hfk, htv⟩))
    · rintro (⟨hfk, htv⟩ | ⟨hfk, htv⟩ | ⟨hfk, htv⟩ | ⟨hfk, htv⟩)
      · exact ⟨(k1, v1), Or.inl rfl, hfk, htv⟩
      · exact ⟨(k2, v2), Or.inr (Or.inl rfl), hfk, htv⟩
      · exact ⟨(k3, v3), Or.inr (Or.inr (Or.inl rfl)), hfk, htv⟩
      · exact ⟨(k4, v4), Or.inr (Or.inr (Or.inr rfl)), hfk, htv⟩
  · intro extra k hk
    have hkt : truthyO (some k) = true := by simp [truthyO, hk]
    constructor
    · simp [create_extra_metadata, extraLoop, extraSlot, hkt, truthyO, hk]
    · simp [create_extra_metadata, extraLoop, extraSlot, hkt, truthyO, hk]

/-- C4 witness: a value without its key raises; a key with an empty value
stores the empty string; the all-empty call is the identity. -/
theorem c4_extra_metadata_slots_w :
    (exceptOk (create_extra_metadata [] none (some ("x")) none none none none none none) =
        false) ∧
    (("k" : String) ≠ "" ∧
      create_extra_metadata [] (some ("k")) (some ("")) none none none none none none =
        Except.ok (pyDictSet [] ("k") (""))) ∧
    create_extra_metadata [] none none none none none none none none = Except.ok [] :=
  ⟨(c4_extra_metadata_slots.1 [] none (some ("x")) none none none none none none).mpr
      (Or.inl (by decide)),
   ⟨by decide, (c4_extra_metadata_slots.2.1 [] ("k") (by decide)).1⟩,
   c4_extra_metadata_slots.2.2 []⟩

/-- C5: with more than one image in the batch (and a scope that produces
metadata), `prepare_pnginfo` injects `Batch index` and `Batch size` into a
copy of the record; the copy agrees with the base record on every other key;
the caller's base record is the same after the call, so repeating the
preparation over a whole batch leaves it unchanged (and free of the batch keys
if it did not contain them). -/
theorem c5_batch_record_copy (gp : PDict → String) (md : List (String × String))
    (d : PDict) (bn total : Nat) (p : Option String) (ep : List (String × String))
    (scope : String) (hscope : scope ≠ "none") (htotal : 1 < total) :
    ∃ out : PrepareOut,
      prepare_pnginfo gp md d bn total p ep scope = some out ∧
      out.base_after = d ∧
      pyLookup out.copy ("Batch index") = some (PVal.pnat bn) ∧
      pyLookup out.copy ("Batch size") = some (PVal.pnat total) ∧
      (∀ k : String, k ≠ "Batch index" → k ≠ "Batch size" →
        pyLookup out.copy k = pyLookup d k) ∧
      (pyLookup d ("Batch index") = none →
        pyLookup out.base_after ("Batch index") = none) ∧
      (pyLookup d ("Batch size") = none →
        pyLookup out.base_after ("Batch size") = none) ∧
      (∀ ns : List Nat,
        ns.foldl (fun b n => prepareBase gp md total p ep scope b n) d = d) := by
  unfold prepare_pnginfo
  rw [if_neg hscope]
  refine ⟨_, rfl, rfl, ?_, ?_, ?_, fun h => h, fun h => h, ?_⟩
  · show pyLookup (if total > 1 then _ else d) _ = _
    rw [if_pos htotal]
    rw [pyLookup_set_other _ _ _ _ (by decide), pyLookup_set_self]
  · show pyLookup (if total > 1 then _ else d) _ = _
    rw [if_pos htotal]
    rw [pyLookup_set_self]
  · intro k hki hks
    show pyLookup (if total > 1 then _ else d) _ = _
    rw [if_pos htotal]
    rw [pyLookup_set_other _ _ _ _ hks, pyLookup_set_other _ _ _ _ hki]
  · intro ns
    induction ns with
    | nil => rfl
    | cons x t ih =>
      rw [List.foldl_cons, prepareBase_eq]
      exact ih

/-- C5 witness: a concrete batch of three images at scope `"full"`. -/
theorem c5_batch_record_copy_w :
    ("full" : String) ≠ "none" ∧ 1 < 3 ∧
    (∃ out : PrepareOut,
      prepare_pnginfo gp0 [] d5 0 3 none [] ("full") = some out ∧
      out.base_after = d5 ∧
      pyLookup out.copy ("Batch index") = some (PVal.pnat 0) ∧
      pyLookup out.copy ("Batch size") = some (PVal.pnat 3) ∧
      (∀ k : String, k ≠ "Batch index" → k ≠ "Batch size" →
        pyLookup out.copy k = pyLookup d5 k) ∧
      (pyLookup d5 ("Batch index") = none →
        pyLookup out.base_after ("Batch index") = none) ∧
      (pyLookup d5 ("Batch size") = none →
        pyLookup out.base_after ("Batch size") = none) ∧
      (∀ ns : List Nat,
        ns.foldl (fun b n => prepareBase gp0 [] 3 none [] ("full") b n) d5 = d5)) :=
  ⟨by decide, by decide, c5_batch_record_copy gp0 [] d5 0 3 none [] ("full")
    (by decide) (by decide)⟩

/-- C6: on the record `{Seed: "12345", Size: "512x768",
Model: "path/to/myModel.safetensors"}` the template
`%model:4%_%seed%_%width%x%height%` formats to `myMo_12345_512x768`
(model basename with directory and extension stripped, truncated to 4; seed
substituted; width/height from the halves of `Size` split on `x`) — at any
clock reading, since no date token occurs. -/
theorem c6_filename_template (now : DateParts) :
    format_filename ("%model:4%_%seed%_%width%x%height%") d6 now =
      Except.ok ("myMo_12345_512x768") := rfl

/-- C7: when the relevant input slots are absent (including an absent
`load_mode`), every selector registered for the single-checkpoint loader kind
returns null rather than failing — the error branch is unreachable for
missing data. -/
theorem c7_absent_slots_null (cm cv cc : String → String) (inputs : Inputs)
    (h1 : inputs ("load_mode") = none) (h2 : inputs ("ckpt_name") = none)
    (h3 : inputs ("vae_model") = none) (h4 : inputs ("clip_model_1") = none)
    (h5 : inputs ("clip_model_2") = none) (h6 : inputs ("clip_model_3") = none)
    (h7 : inputs ("clip_type") = none) (h8 : inputs ("weight_dtype") = none) :
    ∀ p ∈ CAPTURE_FIELD_LIST_ModelAssembler cm cv cc, p.2 inputs = RVal.rnone := by
  have hmode : pyGetFirst inputs ("load_mode") (Val.vstr "full_checkpoint") =
      Val.vstr "full_checkpoint" := by simp [pyGetFirst, h1]
  have hmn : get_model_name inputs = RVal.rnone := by
    rw [get_model_name, hmode]
    simp [pyGetFirst, h2, rvalOfVal]
  have hmh : get_model_hash cm inputs = RVal.rnone := by simp [get_model_hash, hmn]
  have hvn : get_vae_name inputs = RVal.rnone := by simp [get_vae_name, hmode]
  have hvh : get_vae_hash cv inputs = RVal.rnone := by simp [get_vae_hash, hvn]
  have hcn : get_clip_names inputs = RVal.rnone := by simp [get_clip_names, hmode]
  have hch : get_clip_hashes cc inputs = RVal.rnone := by simp [get_clip_hashes, hcn]
  have hct : get_clip_type inputs = RVal.rnone := by simp [get_clip_type, hmode]
  have hud : get_unet_dtype inputs = RVal.rnone := by simp [get_unet_dtype, hmode]
  intro p hp
  simp only [CAPTURE_FIELD_LIST_ModelAssembler, List.mem_cons, List.not_mem_nil,
    or_false] at hp
  rcases hp with rfl | rfl | rfl | rfl | rfl | rfl | rfl | rfl
  · exact hmn
  · exact hmh
  · exact hvn
  · exact hvh
  · exact hcn
  · exact hch
  · exact hct
  · exact hud

/-- C7 witness: the all-absent context and the model-name field of the
registry. -/
theorem c7_absent_slots_null_w :
    ctxAbs ("load_mode") = none ∧ ctxAbs ("ckpt_name") = none ∧
    ctxAbs ("vae_model") = none ∧ ctxAbs ("clip_model_1") = none ∧
    ctxAbs ("clip_model_2") = none ∧ ctxAbs ("clip_model_3") = none ∧
    ctxAbs ("clip_type") = none ∧ ctxAbs ("weight_dtype") = none ∧
    ((FieldKey.meta MetaField.MODEL_NAME, get_model_name) ∈
      CAPTURE_FIELD_LIST_ModelAssembler idStr idStr idStr) ∧
    get_model_name ctxAbs = RVal.rnone :=
  ⟨rfl, rfl, rfl, rfl, rfl, rfl, rfl, rfl,
   List.mem_cons_self _ _,
   c7_absent_slots_null idStr idStr idStr ctxAbs rfl rfl rfl rfl rfl rfl rfl rfl
     (FieldKey.meta MetaField.MODEL_NAME, get_model_name) (List.mem_cons_self _ _)⟩

/-- C8 counterexample: with the checkpoint slot holding the empty string (and
no `load_mode`), the model-name selector returns the non-null empty string,
yet the model-hash selector returns null — not the hash function applied to
that name, which is non-null.  The code gates hashing on Python truthiness,
not on nullness, so the claim as stated fails at this context. -/
theorem c8_hash_compose_cex :
    get_model_name ctxC8 = RVal.rstr ("") ∧
    get_model_hash cmC8 ctxC8 = RVal.rnone ∧
    RVal.rstr (cmC8 ("")) ≠ RVal.rnone :=
  ⟨by decide, by decide, by decide⟩

/-- C8 (amended): the model-hash selector equals the model hash function
applied to the model-name selector's result when that result is a non-null,
non-empty string, and null otherwise; likewise the vae-hash selector; the
clip-hashes selector maps the clip hash over the clip-names result when that
is a (necessarily non-empty) list, and is null otherwise.  All selectors are
pure functions of the context, so the compositions hold for any call order. -/
theorem c8_hash_compose_amended (cm cv cc : String → String) (inputs : Inputs) :
    get_model_hash cm inputs =
      (match get_model_name inputs with
       | RVal.rstr s => if s = "" then RVal.rnone else RVal.rstr (cm s)
       | _ => RVal.rnone) ∧
    get_vae_hash cv inputs =
      (match get_vae_name inputs with
       | RVal.rstr s => if s = "" then RVal.rnone else RVal.rstr (cv s)
       | _ => RVal.rnone) ∧
    get_clip_hashes cc inputs =
      (match get_clip_names inputs with
       | RVal.rstrList l => if l.isEmpty then RVal.rnone else RVal.rstrList (l.map cc)
       | _ => RVal.rnone) :=
  ⟨rfl, rfl, rfl⟩

/-- C9: the hub registry binds the one strength-extraction function to both
the model-strength and the clip-strength field roles, so the two fields
resolve identically on every context. -/
theorem c9_strength_roles_shared (cl : String → Except Unit String) (inputs : Inputs) :
    resolveField (CAPTURE_FIELD_LIST_LoraMetadataHub cl)
        (FieldKey.meta MetaField.LORA_STRENGTH_MODEL) =
      some get_hub_lora_strengths ∧
    resolveField (CAPTURE_FIELD_LIST_LoraMetadataHub cl)
        (FieldKey.meta MetaField.LORA_STRENGTH_CLIP) =
      some get_hub_lora_strengths ∧
    Option.map (fun sel => sel inputs)
        (resolveField (CAPTURE_FIELD_LIST_LoraMetadataHub cl)
          (FieldKey.meta MetaField.LORA_STRENGTH_MODEL)) =
      Option.map (fun sel => sel inputs)
        (resolveField (CAPTURE_FIELD_LIST_LoraMetadataHub cl)
          (FieldKey.meta MetaField.LORA_STRENGTH_CLIP)) :=
  ⟨rfl, rfl, rfl⟩

/-- C10: a well-formed loader context without a `load_mode` slot is treated as
full-checkpoint: the model name is read from `ckpt_name` and the mode-gated
selectors return null; for any mode value other than `"full_checkpoint"` the
model name is read from `base_model` instead. -/
theorem c10_absent_mode_default (cv cc : String → String) (inputs : Inputs)
    (hwf : WFInputs inputs) :
    (inputs ("load_mode") = none →
      get_model_name inputs = rvalOfVal (pyGetFirst inputs ("ckpt_name") Val.vnone) ∧
      get_vae_name inputs = RVal.rnone ∧ get_vae_hash cv inputs = RVal.rnone ∧
      get_clip_names inputs = RVal.rnone ∧ get_clip_hashes cc inputs = RVal.rnone ∧
      get_clip_type inputs = RVal.rnone ∧ get_unet_dtype inputs = RVal.rnone) ∧
    (pyGetFirst inputs ("load_mode") (Val.vstr "full_checkpoint") ≠
        Val.vstr "full_checkpoint" →
      get_model_name inputs = rvalOfVal (pyGetFirst inputs ("base_model") Val.vnone)) := by
  constructor
  · intro h1
    have hmode : pyGetFirst inputs ("load_mode") (Val.vstr "full_checkpoint") =
        Val.vstr "full_checkpoint" := by simp [pyGetFirst, h1]
    have hvn : get_vae_name inputs = RVal.rnone := by simp [get_vae_name, hmode]
    have hcn : get_clip_names inputs = RVal.rnone := by simp [get_clip_names, hmode]
    exact ⟨by simp [get_model_name, hmode], hvn, by simp [get_vae_hash, hvn], hcn,
      by simp [get_clip_hashes, hcn], by simp [get_clip_type, hmode],
      by simp [get_unet_dtype, hmode]⟩
  · intro hne
    simp [get_model_name, if_neg hne]

/-- C10 witness: a context holding only `ckpt_name`. -/
theorem c10_absent_mode_default_w :
    WFInputs ctx10 ∧ ctx10 ("load_mode") = none ∧
    get_model_name ctx10 = rvalOfVal (pyGetFirst ctx10 ("ckpt_name") Val.vnone) ∧
    get_vae_name ctx10 = RVal.rnone :=
  ⟨ctxOf_wf _ (by decide), rfl,
   ((c10_absent_mode_default idStr idStr ctx10 (ctxOf_wf _ (by decide))).1 rfl).1,
   ((c10_absent_mode_default idStr idStr ctx10 (ctxOf_wf _ (by decide))).1 rfl).2.1⟩
